import Mathlib

/-!
Verification of the PowerShell format-string reordering resolver of
`psdecode.py` (function `deobfuscate_powershell_reorder`).

The function is embedded shallowly: one Python line is a `List Char`,
Python exceptions are an explicit error type, and the unbounded
`while re.search(...)` loop is given an explicit fuel parameter (running
out of fuel models a non-terminating loop; a run that terminates in the
source terminates for every sufficiently large fuel, independently of it).

The regular expressions of the source are embedded as deterministic
scanners.  Each of the five patterns used by the function has character
classes that exclude the delimiter that follows them, so Python's
leftmost-greedy backtracking semantics collapses to maximal-munch
scanning; the one exception, the `\s*` that precedes the fragment-list
group of `regex_finder` (whose class contains whitespace), is handled
explicitly in `tryFinderAt` following the backtracking order of the
`re` module.  `re.IGNORECASE` is modelled as ASCII case folding, and the
character classes `\w`, `\d`, `\s` are modelled by their ASCII parts
(the source is only ever applied to PowerShell script text; no claim
depends on non-ASCII code points).  Python's `chr` is modelled by
`pyChr`, which refuses code points that are not valid Lean characters
(surrogates, which Python's `chr` would accept, and everything above
0x10FFFF, which Python's `chr` also rejects with ValueError).
-/

deriving instance DecidableEq for Except

namespace PSDecode

/-- A unit of text (one Python line). -/
abbrev Text := List Char

/-- Convert a Lean string literal to the embedding's text type. -/
def s2l (s : String) : Text := s.toList

/-- The backtick character (Python literal "`" in `content.replace("`", "")`). -/
def bt : Char := '\x60'

/-- The single-quote character. -/
def sq : Char := '\x27'

/-- Python `\d` (ASCII part): the decimal digits. -/
def isDigitChar (c : Char) : Bool := '0' ≤ c && c ≤ '9'

/-- Python `\s` (ASCII part): space, tab, newline, carriage return, vertical tab, form feed. -/
def isSpaceChar (c : Char) : Bool :=
  c = ' ' || c = '\t' || c = '\n' || c = '\x0d' || c = '\x0b' || c = '\x0c'

/-- Python `\w` (ASCII part): letters, digits and underscore. -/
def isWordChar (c : Char) : Bool :=
  ('a' ≤ c && c ≤ 'z') || ('A' ≤ c && c ≤ 'Z') || isDigitChar c || c = '_'

/-- Membership in the source's `charset` character class
`\w|\d|\n|\s|,|.|\-|=|/|:|#|_|{|}|\[|\]` as it reads inside a regex
character class: word characters, digits, newline, whitespace, and the
literal characters `, . - = / : # _ { } [ ] |`. -/
def charsetMem (c : Char) : Bool :=
  isWordChar c || isDigitChar c || c = '\n' || isSpaceChar c ||
  c = ',' || c = '.' || c = '-' || c = '=' || c = '/' || c = ':' ||
  c = '#' || c = '_' || c = '\x7b' || c = '\x7d' || c = '[' || c = ']' || c = '|'

/-- The character class of `regex_finder`'s second group `['charset',]`:
the charset plus the single quote. -/
def finderListMem (c : Char) : Bool := c = sq || charsetMem c || c = ','

/-- The character class of `regex_finder`'s first group `[{\d+}]`:
braces, digits and plus. -/
def templateMem (c : Char) : Bool :=
  c = '\x7b' || isDigitChar c || c = '+' || c = '\x7d'

/-- ASCII lower-casing, the model of `re.IGNORECASE` folding. -/
def lowerAscii (c : Char) : Char :=
  if 'A' ≤ c && c ≤ 'Z' then Char.ofNat (c.toNat + 32) else c

/-- Case-insensitive character comparison (ASCII folding). -/
def eqIC (a b : Char) : Bool := lowerAscii a = lowerAscii b

/-- Match the literal pattern `pat` case-insensitively at the head of `s`,
returning the actual characters consumed (case preserved, as `match.group()`
reports them) and the rest of the input. -/
def matchLitIC : Text → Text → Option (Text × Text)
  | [], s => some ([], s)
  | _ :: _, [] => none
  | p :: ps, c :: rest =>
    if eqIC p c then (matchLitIC ps rest).map (fun a => (c :: a.1, a.2)) else none

/-- Worker for `replaceAll`; `fuel` bounds the recursion (any
`fuel ≥ s.length` computes the full replacement, see `replaceAll`). -/
def replaceAllAux (old new : Text) : Nat → Text → Text
  | 0, s => s
  | _ + 1, [] => []
  | fuel + 1, c :: rest =>
    if old.isPrefixOf (c :: rest) then
      new ++ replaceAllAux old new fuel (List.drop old.length (c :: rest))
    else
      c :: replaceAllAux old new fuel rest

/-- Python `s.replace(old, new)`: replace every non-overlapping occurrence
of `old` in `s` by `new`, left to right.  All call sites of the source
pass a non-empty `old`; for `old = ""` we return `s` unchanged. -/
def replaceAll (s old new : Text) : Text :=
  match old with
  | [] => s
  | _ :: _ => replaceAllAux old new s.length s

/-- Python `s.strip()`: drop leading and trailing whitespace. -/
def pyStrip (s : Text) : Text :=
  ((s.dropWhile isSpaceChar).reverse.dropWhile isSpaceChar).reverse

/-- The decimal digit character for `n % 10`. -/
def digitChar (n : Nat) : Char := Char.ofNat (48 + n % 10)

/-- Worker for `natToText` (fuel-bounded base-10 printing). -/
def natDigitsAux : Nat → Nat → Text
  | 0, _ => []
  | fuel + 1, n =>
    if n < 10 then [digitChar n] else natDigitsAux fuel (n / 10) ++ [digitChar (n % 10)]

/-- Python `str(n)` for a natural number. -/
def natToText (n : Nat) : Text := natDigitsAux (n + 1) n

/-- Python `int(ds, 10)` for a string of decimal digits. -/
def natOfDigits (ds : Text) : Nat := ds.foldl (fun a c => 10 * a + (c.toNat - 48)) 0

/-- Python `chr(n)`.  Rejects code points above 0x10FFFF exactly as Python
does (ValueError); additionally rejects surrogates, which Lean's `Char`
cannot represent (no claim exercises them). -/
def pyChr (n : Nat) : Option Char :=
  if n < 0xd800 || (0xdfff < n && n < 0x110000) then some (Char.ofNat n) else none

/-- Python `"'" + s + "'"` (the quoting used for placeholders and lookups). -/
def quoteText (s : Text) : Text := sq :: s ++ [sq]

/-- One match of `regex_char` (`\[char\](\d+)`, IGNORECASE): the full
matched text and the numeric value of its digit group. -/
structure CharMatch where
  whole : Text
  value : Nat
  deriving Repr, DecidableEq

/-- Try `regex_char` at the head of `s`: the literal `[char]`
(case-insensitive) followed by one or more digits (greedy). -/
def tryCharAt (s : Text) : Option (CharMatch × Text) :=
  match matchLitIC (s2l "[char]") s with
  | none => none
  | some (lit, r1) =>
    let ds := r1.takeWhile isDigitChar
    if ds = [] then none
    else some ({ whole := lit ++ ds, value := natOfDigits ds }, r1.dropWhile isDigitChar)

/-- Generic model of `re.finditer`: scan left to right, at each position
try the position matcher; on success emit the match and continue after
the consumed text (non-overlapping), on failure advance one character.
`fuel` bounds the scan; every matcher used consumes at least one
character, so `fuel = s.length` visits every position (see `findAll`). -/
def scanAux (tryAt : Text → Option (α × Text)) : Nat → Text → List α
  | 0, _ => []
  | _ + 1, [] => []
  | fuel + 1, c :: rest =>
    match tryAt (c :: rest) with
    | some (m, remaining) => m :: scanAux tryAt fuel remaining
    | none => scanAux tryAt fuel rest

/-- All non-overlapping matches of a position matcher, leftmost first. -/
def findAll (tryAt : Text → Option (α × Text)) (s : Text) : List α :=
  scanAux tryAt s.length s

/-- `re.finditer(regex_char, content, re.IGNORECASE)`. -/
def findCharMatches (s : Text) : List CharMatch := findAll tryCharAt s

/-- One match of `regex_finder`
`\(\"([{\d+}]+)\"\s*-f\s*(['charset',]+)\)` (IGNORECASE): the full
matched text, group 1 (the template) and group 2 (the fragment list). -/
structure FinderMatch where
  whole : Text
  template : Text
  fragList : Text
  deriving Repr, DecidableEq

/-- Try `regex_finder` at the head of `s`.  The classes of both groups
exclude the quote that follows them, so they match maximal runs; the
`\s*` before group 2 overlaps with the group's own class (which contains
whitespace), and Python's greedy backtracking resolves it as follows:
the run of group-2 characters always extends to the first character not
in the class, the closing parenthesis must stand exactly there, and
group 2 starts after the leading whitespace except that it keeps one
final whitespace character when the whole run is whitespace (`[...]+`
needs at least one character). -/
def tryFinderAt (s : Text) : Option (FinderMatch × Text) :=
  match s with
  | '(' :: '"' :: r1 =>
    let g1 := r1.takeWhile templateMem
    if g1 = [] then none
    else
      match r1.dropWhile templateMem with
      | '"' :: r3 =>
        let ws1 := r3.takeWhile isSpaceChar
        match r3.dropWhile isSpaceChar with
        | '-' :: f :: r5 =>
          if eqIC f 'f' then
            let m := (r5.takeWhile isSpaceChar).length
            let run2 := r5.takeWhile finderListMem
            if run2 = [] then none
            else
              match r5.dropWhile finderListMem with
              | ')' :: r8 =>
                some ({ whole := '(' :: '"' :: g1 ++ '"' :: ws1 ++ '-' :: f :: (run2 ++ [')']),
                        template := g1,
                        fragList := run2.drop (min m (run2.length - 1)) }, r8)
              | _ => none
          else none
        | _ => none
      | _ => none
  | _ => none

/-- `re.finditer(regex_finder, content, re.IGNORECASE)` (also the model
of `re.search` on the same pattern: the search succeeds iff this list is
non-empty). -/
def findFinderMatches (s : Text) : List FinderMatch := findAll tryFinderAt s

/-- `re.search(regex_finder, content, re.IGNORECASE)` succeeds. -/
def searchFinder (s : Text) : Bool := !(findFinderMatches s).isEmpty

/-- Try `regex_position` (`{(\d+)}`) at the head of `s`, yielding the
numeric value of the digit group (the source always applies `int`). -/
def tryPositionAt (s : Text) : Option (Nat × Text) :=
  match s with
  | '\x7b' :: r1 =>
    let ds := r1.takeWhile isDigitChar
    if ds = [] then none
    else
      match r1.dropWhile isDigitChar with
      | '\x7d' :: r3 => some (natOfDigits ds, r3)
      | _ => none
  | _ => none

/-- `re.findall(regex_position, template, re.IGNORECASE)` with `int` applied. -/
def findPositions (s : Text) : List Nat := findAll tryPositionAt s

/-- Try `regex_content` (`'([charset]+)'`) at the head of `s`, yielding
the text between the quotes. -/
def tryContentAt (s : Text) : Option (Text × Text) :=
  match s with
  | '\x27' :: r1 =>
    let run := r1.takeWhile charsetMem
    if run = [] then none
    else
      match r1.dropWhile charsetMem with
      | '\x27' :: r3 => some (run, r3)
      | _ => none
  | _ => none

/-- `re.findall(regex_content, fragment_capture, re.IGNORECASE)`. -/
def findContents (s : Text) : List Text := findAll tryContentAt s

/-- Try `regex_placeholder` (`({#subs_\d+})`, IGNORECASE) at the head of
`s`, yielding the full token text. -/
def tryPlaceholderAt (s : Text) : Option (Text × Text) :=
  match matchLitIC (s2l "\x7b#subs_") s with
  | none => none
  | some (lit, r1) =>
    let ds := r1.takeWhile isDigitChar
    if ds = [] then none
    else
      match r1.dropWhile isDigitChar with
      | '\x7d' :: r3 => some (lit ++ ds ++ ['\x7d'], r3)
      | _ => none

/-- `re.finditer(regex_placeholder, content, re.IGNORECASE)`. -/
def findPlaceholders (s : Text) : List Text := findAll tryPlaceholderAt s

/-- The Python exceptions the function can raise, plus fuel exhaustion
(the model of a `while` loop that never terminates). -/
inductive PErr where
  | indexError
  | keyError
  | valueError
  | fuelExhausted
  deriving Repr, DecidableEq

/-- Dictionary lookup in the `occurrences` dict (keyed access only; the
source never iterates the dict). -/
def lookupOcc : List (Text × Text) → Text → Option Text
  | [], _ => none
  | (k, v) :: rest, key => if k = key then some v else lookupOcc rest key

/-- Sequential fold that propagates the first raised exception, the shape
of every `for` loop of the source whose body may raise. -/
def foldSteps (f : β → α → Except PErr β) : β → List α → Except PErr β
  | b, [] => .ok b
  | b, a :: as =>
    match f b a with
    | .error e => .error e
    | .ok b' => foldSteps f b' as

/-- One iteration of the character-code loop: replace every occurrence of
the matched `[char]N` text by the quoted character, then remove every
backtick from the line (`content.replace("`", "")` — the source strips
all backticks, not only adjacent ones). -/
def charStep (content : Text) (m : CharMatch) : Except PErr Text :=
  match pyChr m.value with
  | none => .error .valueError
  | some ch => .ok (replaceAll (replaceAll content m.whole (quoteText [ch])) [bt] [])

/-- The character-code pre-pass (source lines 87-92): iterate the matches
of `regex_char` found in the incoming line. -/
def convertCharCodes (line : Text) : Except PErr Text :=
  foldSteps charStep line (findCharMatches line)

/-- One step of the output accumulation (source lines 114-118): look up
the fragment at position `p` (IndexError when out of range), then append
either its placeholder value (KeyError when the quoted fragment is not a
key of `occurrences`) or the stripped fragment text. -/
def outStep (occ : List (Text × Text)) (contents : List Text) (out : Text) (p : Nat) :
    Except PErr Text :=
  match contents.get? p with
  | none => .error .indexError
  | some frag =>
    if (tryPlaceholderAt frag).isSome then
      match lookupOcc occ (quoteText frag) with
      | none => .error .keyError
      | some v => .ok (out ++ v)
    else .ok (out ++ pyStrip frag)

/-- Reassemble the literal for one expression: fold the template
positions in template order over the fragment list. -/
def resolveOut (occ : List (Text × Text)) (positions : List Nat) (contents : List Text) :
    Except PErr Text :=
  foldSteps (outStep occ contents) [] positions

/-- The placeholder token text `{#subs_k}` (source builds `"'{#subs_" +
str(count_matches) + "}'"`; the quotes are added by `quoteText`). -/
def placeholderText (k : Nat) : Text := s2l "\x7b#subs_" ++ natToText k ++ ['\x7d']

/-- The per-line working state of the source: the current `content`, the
`count_matches` counter and the `occurrences` dict. -/
structure LineState where
  content : Text
  countMatches : Nat
  occurrences : List (Text × Text)
  deriving Repr, DecidableEq

/-- Process one match of `regex_finder` (source lines 97-124): extract
positions and contents from the captures (newlines removed, stripped);
if their lengths agree, resolve, register the result under a fresh
quoted placeholder and substitute the placeholder for every occurrence
of the matched text; otherwise leave the state unchanged. -/
def processMatch (st : LineState) (m : FinderMatch) : Except PErr LineState :=
  let positions := findPositions (pyStrip (replaceAll m.template ['\n'] []))
  let contents := findContents (pyStrip (replaceAll m.fragList ['\n'] []))
  if positions.length = contents.length then
    match resolveOut st.occurrences positions contents with
    | .error e => .error e
    | .ok out =>
      let ph := quoteText (placeholderText st.countMatches)
      .ok { content := replaceAll st.content m.whole ph,
            countMatches := st.countMatches + 1,
            occurrences := st.occurrences ++ [(ph, out)] }
  else .ok st

/-- One sweep of the `while` loop: iterate over the matches found in the
content as it was at the start of the sweep (the source's `finditer`
iterator ranges over the string object captured before the body mutates
`content`). -/
def sweep (st : LineState) : Except PErr LineState :=
  foldSteps processMatch st (findFinderMatches st.content)

/-- The `while re.search(regex_finder, content)` loop (source lines
95-124), with explicit fuel: each unit of fuel pays for one sweep. -/
def scanLoop : Nat → LineState → Except PErr LineState
  | 0, st => if searchFinder st.content then .error .fuelExhausted else .ok st
  | fuel + 1, st =>
    if searchFinder st.content then
      match sweep st with
      | .error e => .error e
      | .ok st' => scanLoop fuel st'
    else .ok st

/-- One step of the final expansion sweep (source lines 127-131): look
the quoted token up in `occurrences` (KeyError when absent) and replace
every occurrence of the quoted token in the content. -/
def expandStep (occ : List (Text × Text)) (content : Text) (tok : Text) :
    Except PErr Text :=
  match lookupOcc occ (quoteText tok) with
  | none => .error .keyError
  | some v => .ok (replaceAll content (quoteText tok) v)

/-- The final expansion sweep: iterate over the placeholder matches found
in the content as it was when the scanning loop stopped. -/
def expandPlaceholders (occ : List (Text × Text)) (content : Text) : Except PErr Text :=
  foldSteps (expandStep occ) content (findPlaceholders content)

/-- Processing of one line (source lines 81-134): character-code
pre-pass, then the scanning loop from a fresh state, then the final
expansion sweep. -/
def processLine (fuel : Nat) (line : Text) : Except PErr Text :=
  match convertCharCodes line with
  | .error e => .error e
  | .ok c =>
    match scanLoop fuel { content := c, countMatches := 0, occurrences := [] } with
    | .error e => .error e
    | .ok st => expandPlaceholders st.occurrences st.content

/-- Process a list of lines in order, appending each result; the first
raised exception aborts the whole call, as in Python. -/
def mapLines (f : Text → Except PErr Text) : List Text → Except PErr (List Text)
  | [] => .ok []
  | l :: ls =>
    match f l with
    | .error e => .error e
    | .ok r =>
      match mapLines f ls with
      | .error e => .error e
      | .ok rs => .ok (r :: rs)

/-- The entry point `deobfuscate_powershell_reorder(lines)` (source lines
52-137), with the fuel of the per-line scanning loop made explicit. -/
def deobfuscate_powershell_reorder (fuel : Nat) (lines : List Text) :
    Except PErr (List Text) :=
  mapLines (processLine fuel) lines

/-! ## Helper lemmas -/

/-- When `re.search(regex_finder, content)` fails, the scanning loop
returns its state untouched, whatever the fuel. -/
theorem scanLoop_no_search (fuel : Nat) (st : LineState)
    (h : searchFinder st.content = false) : scanLoop fuel st = .ok st := by
  cases fuel <;> simp [scanLoop, h]

/-- A run of `processLine` whose scanning loop performs exactly one sweep
and then finds no further match reduces to the final expansion sweep on
the state that sweep produced. -/
theorem processLine_one_sweep (n : Nat) (l c : Text) (st : LineState)
    (h1 : convertCharCodes l = .ok c)
    (h2 : searchFinder c = true)
    (h3 : sweep { content := c, countMatches := 0, occurrences := [] } = .ok st)
    (h4 : searchFinder st.content = false) :
    processLine (n + 1) l = expandPlaceholders st.occurrences st.content := by
  simp [processLine, h1, scanLoop, h2, h3, scanLoop_no_search n st h4]

/-- `replaceAllAux` with the one-character pattern backtick and empty
replacement leaves no backtick behind (given enough fuel). -/
theorem bt_not_mem_replaceAllAux (fuel : Nat) :
    ∀ s : Text, s.length ≤ fuel → bt ∉ replaceAllAux [bt] [] fuel s := by
  induction fuel with
  | zero =>
    intro s hs
    rw [List.length_eq_zero.mp (Nat.le_zero.mp hs)]
    simp [replaceAllAux]
  | succ k ih =>
    intro s hs
    cases s with
    | nil => simp [replaceAllAux]
    | cons c rest =>
      intro hmem
      rw [show replaceAllAux [bt] [] (k + 1) (c :: rest)
          = if [bt].isPrefixOf (c :: rest)
            then [] ++ replaceAllAux [bt] [] k (List.drop [bt].length (c :: rest))
            else c :: replaceAllAux [bt] [] k rest from rfl] at hmem
      by_cases hpre : [bt].isPrefixOf (c :: rest)
      · rw [if_pos hpre] at hmem
        have hdrop : List.drop [bt].length (c :: rest) = rest := rfl
        rw [hdrop, List.nil_append] at hmem
        exact ih rest (Nat.le_of_succ_le_succ hs) hmem
      · rw [if_neg hpre] at hmem
        rcases List.mem_cons.mp hmem with h1 | h2
        · apply hpre
          rw [← h1]
          simp [List.isPrefixOf]
        · exact ih rest (Nat.le_of_succ_le_succ hs) h2

/-- Removing all backticks via `replaceAll` leaves no backtick behind. -/
theorem bt_not_mem_replaceAll_tick (s : Text) : bt ∉ replaceAll s [bt] [] := by
  simpa [replaceAll] using bt_not_mem_replaceAllAux s.length s le_rfl

/-- Every successful character-code iteration ends with the backtick
removal, so its result contains no backtick. -/
theorem bt_not_mem_charStep (content : Text) (m : CharMatch) (r : Text)
    (h : charStep content m = .ok r) : bt ∉ r := by
  unfold charStep at h
  cases hc : pyChr m.value with
  | none => rw [hc] at h; exact absurd h (by simp)
  | some ch =>
    rw [hc] at h
    have hr : replaceAll (replaceAll content m.whole (quoteText [ch])) [bt] [] = r := by
      exact Except.ok.inj h
    rw [← hr]
    exact bt_not_mem_replaceAll_tick _

/-- Unfolding `foldSteps` on a cons whose first step raises. -/
theorem foldSteps_cons_error (f : β → α → Except PErr β) (b : β) (a : α) (as : List α)
    (e : PErr) (h : f b a = .error e) : foldSteps f b (a :: as) = .error e := by
  unfold foldSteps
  rw [h]

/-- Unfolding `foldSteps` on a cons whose first step succeeds. -/
theorem foldSteps_cons_ok (f : β → α → Except PErr β) (b : β) (a : α) (as : List α)
    (b' : β) (h : f b a = .ok b') : foldSteps f b (a :: as) = foldSteps f b' as := by
  unfold foldSteps
  rw [h]
  cases as <;> rfl

/-- Folding a non-empty list of character-code matches yields a
backtick-free result whenever it succeeds. -/
theorem bt_not_mem_foldSteps_charStep :
    ∀ (ms : List CharMatch) (st r : Text), ms ≠ [] →
      foldSteps charStep st ms = .ok r → bt ∉ r := by
  intro ms
  induction ms with
  | nil => intro st r h _; exact absurd rfl h
  | cons m ms ih =>
    intro st r _ hf
    cases hc : charStep st m with
    | error e =>
      rw [foldSteps_cons_error charStep st m ms e hc] at hf
      exact absurd hf (by simp)
    | ok mid =>
      rw [foldSteps_cons_ok charStep st m ms mid hc] at hf
      cases ms with
      | nil =>
        have hmr : mid = r := Except.ok.inj hf
        exact hmr ▸ bt_not_mem_charStep st m mid hc
      | cons m2 ms2 => exact ih mid r (by simp) hf

/-! ## Claim theorems -/

/-- C1: the input line containing the reorder expression
`("{2}{0}{1}" -f 'A','B','C')` is returned with `CAB` in the
expression's place: the resolved string concatenates the fragments in
template-index order (fragment 2, then 0, then 1), not in fragment-list
order. -/
theorem c1_basic_reorder_template_order (n : Nat) :
    deobfuscate_powershell_reorder (n + 1)
        [s2l "$x = (\"\x7b2\x7d\x7b0\x7d\x7b1\x7d\" -f 'A','B','C');"]
      = .ok [s2l "$x = CAB;"] := by
  have hp : processLine (n + 1) (s2l "$x = (\"\x7b2\x7d\x7b0\x7d\x7b1\x7d\" -f 'A','B','C');")
      = .ok (s2l "$x = CAB;") := by
    rw [processLine_one_sweep n
      (s2l "$x = (\"\x7b2\x7d\x7b0\x7d\x7b1\x7d\" -f 'A','B','C');")
      (s2l "$x = (\"\x7b2\x7d\x7b0\x7d\x7b1\x7d\" -f 'A','B','C');")
      ⟨s2l "$x = '\x7b#subs_0\x7d';", 1, [(s2l "'\x7b#subs_0\x7d'", s2l "CAB")]⟩
      rfl rfl rfl rfl]
    rfl
  simp [deobfuscate_powershell_reorder, mapLines, hp]

/-- C2: the claim says an out-of-range template index is a fail-open
precondition failure that leaves the line unchanged; the code instead
raises IndexError on `("{5}" -f 'A')` (the only guard compares lengths,
which match here, and `contents[5]` is then evaluated on a one-element
list), so the whole call aborts with an exception for every fuel. -/
theorem c2_out_of_range_raises (n : Nat) :
    deobfuscate_powershell_reorder (n + 1) [s2l "(\"\x7b5\x7d\" -f 'A')"]
      = .error .indexError := by
  have hcc : convertCharCodes (s2l "(\"\x7b5\x7d\" -f 'A')")
      = .ok (s2l "(\"\x7b5\x7d\" -f 'A')") := rfl
  have ht : searchFinder (s2l "(\"\x7b5\x7d\" -f 'A')") = true := rfl
  have hs : sweep ⟨s2l "(\"\x7b5\x7d\" -f 'A')", 0, []⟩ = .error .indexError := rfl
  have hp : processLine (n + 1) (s2l "(\"\x7b5\x7d\" -f 'A')") = .error .indexError := by
    simp [processLine, hcc, scanLoop, ht, hs]
  simp [deobfuscate_powershell_reorder, mapLines, hp]

/-- C3: the claim says a template/fragment length mismatch is fail-open
and the line `("{0}{1}" -f 'A','B','C')` is returned unchanged; the code
instead loops forever on it (every sweep finds the match, the mismatch
branch performs no replacement, and `while re.search` keeps succeeding
on the unchanged text), modelled as fuel exhaustion at every fuel. -/
theorem c3_length_mismatch_loops (fuel : Nat) :
    deobfuscate_powershell_reorder fuel [s2l "(\"\x7b0\x7d\x7b1\x7d\" -f 'A','B','C')"]
      = .error .fuelExhausted := by
  have hloop : ∀ m : Nat,
      scanLoop m ⟨s2l "(\"\x7b0\x7d\x7b1\x7d\" -f 'A','B','C')", 0, []⟩
        = .error .fuelExhausted := by
    intro m
    induction m with
    | zero => rfl
    | succ k ih =>
      have hs : sweep ⟨s2l "(\"\x7b0\x7d\x7b1\x7d\" -f 'A','B','C')", 0, []⟩
          = .ok ⟨s2l "(\"\x7b0\x7d\x7b1\x7d\" -f 'A','B','C')", 0, []⟩ := rfl
      have ht : searchFinder (s2l "(\"\x7b0\x7d\x7b1\x7d\" -f 'A','B','C')") = true := rfl
      simp [scanLoop, ht, hs, ih]
  have hcc : convertCharCodes (s2l "(\"\x7b0\x7d\x7b1\x7d\" -f 'A','B','C')")
      = .ok (s2l "(\"\x7b0\x7d\x7b1\x7d\" -f 'A','B','C')") := rfl
  have hp : processLine fuel (s2l "(\"\x7b0\x7d\x7b1\x7d\" -f 'A','B','C')")
      = .error .fuelExhausted := by
    simp [processLine, hcc, hloop fuel]
  simp [deobfuscate_powershell_reorder, mapLines, hp]

/-- C4: the claim says the SCANNING loop terminates on every finite
line; on `("{0}" -f 'A','B')` each sweep finds the one match, resolves
nothing (1 template index against 2 fragments), and leaves the text
unchanged, so the loop runs forever: it exhausts every fuel bound. -/
theorem c4_scanning_nonterminating (fuel : Nat) :
    scanLoop fuel ⟨s2l "(\"\x7b0\x7d\" -f 'A','B')", 0, []⟩ = .error .fuelExhausted := by
  induction fuel with
  | zero => rfl
  | succ k ih =>
    have hs : sweep ⟨s2l "(\"\x7b0\x7d\" -f 'A','B')", 0, []⟩
        = .ok ⟨s2l "(\"\x7b0\x7d\" -f 'A','B')", 0, []⟩ := rfl
    have ht : searchFinder (s2l "(\"\x7b0\x7d\" -f 'A','B')") = true := rfl
    simp [scanLoop, ht, hs, ih]

/-- C5: the claim says every line on which SCANNING terminates comes
back with zero placeholder-shaped tokens; on `("{0}" -f 'x{#subs_9}')`
SCANNING terminates after one sweep, yet the returned line is
`x{#subs_9}` — the fragment's placeholder-shaped tail is re-injected by
the final expansion sweep and nothing replaces it. -/
theorem c5_placeholder_survives (n : Nat) :
    deobfuscate_powershell_reorder (n + 1) [s2l "(\"\x7b0\x7d\" -f 'x\x7b#subs_9\x7d')"]
      = .ok [s2l "x\x7b#subs_9\x7d"]
    ∧ findPlaceholders (s2l "x\x7b#subs_9\x7d") ≠ [] := by
  refine ⟨?_, by decide⟩
  have hp : processLine (n + 1) (s2l "(\"\x7b0\x7d\" -f 'x\x7b#subs_9\x7d')")
      = .ok (s2l "x\x7b#subs_9\x7d") := by
    rw [processLine_one_sweep n
      (s2l "(\"\x7b0\x7d\" -f 'x\x7b#subs_9\x7d')")
      (s2l "(\"\x7b0\x7d\" -f 'x\x7b#subs_9\x7d')")
      ⟨s2l "'\x7b#subs_0\x7d'", 1, [(s2l "'\x7b#subs_0\x7d'", s2l "x\x7b#subs_9\x7d")]⟩
      rfl rfl rfl rfl]
    rfl
  simp [deobfuscate_powershell_reorder, mapLines, hp]

/-- C6: the character-code pre-pass converts `[char]72` to the quoted
literal 'H' with the adjacent backtick line-continuation markers
stripped, and (second conjunct) `processLine` runs that pre-pass before
the reorder-detection loop and the expansion sweep on every input. -/
theorem c6_char_prepass :
    convertCharCodes (s2l "Write \x60[char]72\x60;") = .ok (s2l "Write 'H';")
    ∧ ∀ (fuel : Nat) (line : Text),
        processLine fuel line =
          match convertCharCodes line with
          | .error e => .error e
          | .ok c =>
            match scanLoop fuel { content := c, countMatches := 0, occurrences := [] } with
            | .error e => .error e
            | .ok st => expandPlaceholders st.occurrences st.content :=
  ⟨rfl, fun _ _ => rfl⟩

/-- C7 counterexample: the line `[char]72` contains no reorder
expression, yet the function rewrites it to `'H'` (the character-code
pre-pass fires), so the function is not the identity on input without
reorder expressions. -/
theorem c7_clean_identity_cex :
    findFinderMatches (s2l "[char]72") = []
    ∧ deobfuscate_powershell_reorder 0 [s2l "[char]72"] = .ok [s2l "'H'"]
    ∧ s2l "'H'" ≠ s2l "[char]72" :=
  ⟨by decide, rfl, by decide⟩

/-- C7 amended: the function is the identity on every input sequence
whose lines contain no reorder-expression match, no character-code
escape match end no placeholder-shaped token (the last two exclusions
added: the pre-pass rewrites character-code escapes, and a
placeholder-shaped token triggers a KeyError in the expansion sweep). -/
theorem c7_clean_identity_amended (fuel : Nat) (lines : List Text)
    (h : ∀ l ∈ lines, findCharMatches l = [] ∧ findFinderMatches l = []
          ∧ findPlaceholders l = []) :
    deobfuscate_powershell_reorder fuel lines = .ok lines := by
  induction lines with
  | nil => rfl
  | cons l ls ih =>
    obtain ⟨h1, h2, h3⟩ := h l (List.mem_cons_self l ls)
    have hsf : searchFinder l = false := by simp [searchFinder, h2]
    have hcc : convertCharCodes l = .ok l := by
      simp [convertCharCodes, h1, foldSteps]
    have hsl : scanLoop fuel ⟨l, 0, []⟩ = .ok ⟨l, 0, []⟩ :=
      scanLoop_no_search fuel _ hsf
    have hep : expandPlaceholders ([] : List (Text × Text)) l = .ok l := by
      simp [expandPlaceholders, h3, foldSteps]
    have hp : processLine fuel l = .ok l := by
      simp [processLine, hcc, hsl, hep]
    have hml : mapLines (processLine fuel) ls = .ok ls :=
      ih (fun x hx => h x (List.mem_cons_of_mem l hx))
    simp [deobfuscate_powershell_reorder, mapLines, hp, hml]

/-- C7 amended, witness. -/
theorem c7_clean_identity_amended_witness :
    deobfuscate_powershell_reorder 1 [s2l "Write-Host $a;"] = .ok [s2l "Write-Host $a;"] :=
  c7_clean_identity_amended 1 [s2l "Write-Host $a;"] (by decide)

/-- C8: determinism — two runs on identical input sequences produce
identical results.  The embedding is a pure function of its input; the
source relies on no unordered iteration (the occurrences dict is only
ever read by key, and every scan is a left-to-right text scan). -/
theorem c8_deterministic (fuel : Nat) (input : List Text)
    (r1 r2 : Except PErr (List Text))
    (h1 : r1 = deobfuscate_powershell_reorder fuel input)
    (h2 : r2 = deobfuscate_powershell_reorder fuel input) : r1 = r2 :=
  h1.trans h2.symm

/-- C8, witness. -/
theorem c8_deterministic_witness :
    deobfuscate_powershell_reorder 1 [s2l "(\"\x7b1\x7d\x7b0\x7d\" -f 'BA','CD')"]
      = deobfuscate_powershell_reorder 1 [s2l "(\"\x7b1\x7d\x7b0\x7d\" -f 'BA','CD')"] :=
  c8_deterministic 1 [s2l "(\"\x7b1\x7d\x7b0\x7d\" -f 'BA','CD')"] _ _ rfl rfl

/-- C9: the claim says the function always returns text, raising no
exception for malformed input; the line `{#subs_0}` (a coincidental
placeholder-shaped token with no table entry) raises KeyError in the
final expansion sweep, aborting the whole call, for every fuel. -/
theorem c9_keyerror_raised (fuel : Nat) :
    deobfuscate_powershell_reorder fuel [s2l "\x7b#subs_0\x7d"] = .error .keyError := by
  have hcc : convertCharCodes (s2l "\x7b#subs_0\x7d") = .ok (s2l "\x7b#subs_0\x7d") := rfl
  have hsl : scanLoop fuel ⟨s2l "\x7b#subs_0\x7d", 0, []⟩
      = .ok ⟨s2l "\x7b#subs_0\x7d", 0, []⟩ := scanLoop_no_search fuel _ rfl
  have hex : expandPlaceholders ([] : List (Text × Text)) (s2l "\x7b#subs_0\x7d")
      = .error .keyError := rfl
  have hp : processLine fuel (s2l "\x7b#subs_0\x7d") = .error .keyError := by
    simp [processLine, hcc, hsl, hex]
  simp [deobfuscate_powershell_reorder, mapLines, hp]

/-- C10: whenever a line contains at least one character-code escape,
the pre-pass removes every backtick anywhere in the line (each
iteration runs `content.replace` on the whole line); on a line with no
such escape the pre-pass is the identity, so every backtick stays. -/
theorem c10_backtick_removal (line : Text) :
    (findCharMatches line ≠ [] → ∀ r, convertCharCodes line = .ok r → bt ∉ r)
    ∧ (findCharMatches line = [] → convertCharCodes line = .ok line) := by
  constructor
  · intro hne r hok
    exact bt_not_mem_foldSteps_charStep (findCharMatches line) line r hne hok
  · intro he
    unfold convertCharCodes
    rw [he]
    rfl

/-- C10, witness. -/
theorem c10_backtick_removal_witness :
    (findCharMatches (s2l "\x60[char]72\x60") ≠ [] ∧ bt ∉ s2l "'H'")
    ∧ (findCharMatches (s2l "a\x60b") = []
        ∧ convertCharCodes (s2l "a\x60b") = .ok (s2l "a\x60b")) :=
  ⟨⟨by decide, (c10_backtick_removal (s2l "\x60[char]72\x60")).1 (by decide)
      (s2l "'H'") (by decide)⟩,
   ⟨by decide, (c10_backtick_removal (s2l "a\x60b")).2 (by decide)⟩⟩

end PSDecode
